import Mathlib

/-!
Verification of the per-tensor-affine fake-quantization operators
(`fake_quantize_per_tensor_affine_cuda` and its backward companion),
shallowly embedded over rational-valued arrays modelled as `List ℚ`.
Tensors are lists of element values; the elementwise CUDA kernels become
`List.map` / `List.zipWith`; the C++ exceptions become an error type in
`Except`.  A second model (`TensorRef`) additionally tags arrays with an
allocation identifier so that statements about "a newly allocated array"
versus "the input array itself" can be expressed.
-/

namespace FakeQuant

/-- The error taxonomy of the two operators: the four
`std::invalid_argument` throws of the shared parameter validation, plus
the size-mismatch throw of the backward operator. -/
inductive QuantError where
  | invalidRange
  | invalidZeroPoint
  | invalidDelay
  | invalidIter
  | shapeMismatch
deriving DecidableEq, Repr

/-- `std::round`: round to nearest integer, halfway cases away from zero. -/
def roundAway (x : ℚ) : ℤ :=
  if 0 ≤ x then ⌊x + 1/2⌋ else ⌈x - 1/2⌉

/-- The forward CUDA kernel body: one element of
`(fminf(quant_max, fmaxf(quant_min, round(x * inv_scale + zero_point))) - zero_point) * scale`. -/
def fakeQuantElem (scale : ℚ) (zero_point quant_min quant_max : ℤ)
    (inv_scale : ℚ) (x : ℚ) : ℚ :=
  (min (quant_max : ℚ) (max (quant_min : ℚ)
      ((roundAway (x * inv_scale + zero_point) : ℤ) : ℚ)) - zero_point) * scale

/-- The backward CUDA kernel body: the straight-through-estimator mask
`float(Xq >= quant_min && Xq <= quant_max)` with
`Xq = round(x * inv_scale + zero_point)`. -/
def maskElem (zero_point quant_min quant_max : ℤ) (inv_scale : ℚ) (x : ℚ) : ℚ :=
  let Xq := roundAway (x * inv_scale + zero_point)
  if quant_min ≤ Xq ∧ Xq ≤ quant_max then 1 else 0

/-- `fake_quantize_per_tensor_affine_cuda`: validation in source order,
then the warm-up passthrough copy, then the elementwise kernel with
`inv_scale` computed once per call. -/
def fake_quantize_per_tensor_affine_cuda (self : List ℚ) (scale : ℚ)
    (zero_point quant_min quant_max quant_delay it : ℤ) :
    Except QuantError (List ℚ) :=
  if quant_min > quant_max then .error .invalidRange
  else if zero_point < 0 then .error .invalidZeroPoint
  else if quant_delay < 0 then .error .invalidDelay
  else if quant_delay ≠ 0 ∧ it < 0 then .error .invalidIter
  else if quant_delay > 0 ∧ it ≤ quant_delay then .ok self
  else
    let inv_scale := 1 / scale
    .ok (self.map (fakeQuantElem scale zero_point quant_min quant_max inv_scale))

/-- `fake_quantize_per_tensor_affine_backward_cuda`: validation in source
order — note the zero-element shortcut sits between the `quant_delay < 0`
check and the size-mismatch check, before the `iter` check — then the
warm-up passthrough, then `mask * dY`. -/
def fake_quantize_per_tensor_affine_backward_cuda (dY X : List ℚ) (scale : ℚ)
    (zero_point quant_min quant_max quant_delay it : ℤ) :
    Except QuantError (List ℚ) :=
  if quant_min > quant_max then .error .invalidRange
  else if zero_point < 0 then .error .invalidZeroPoint
  else if quant_delay < 0 then .error .invalidDelay
  else if X.length ≤ 0 then .ok X
  else if X.length ≠ dY.length then .error .shapeMismatch
  else if quant_delay ≠ 0 ∧ it < 0 then .error .invalidIter
  else if quant_delay > 0 ∧ it ≤ quant_delay then .ok dY
  else
    let inv_scale := 1 / scale
    let mask := X.map (maskElem zero_point quant_min quant_max inv_scale)
    .ok (List.zipWith (· * ·) mask dY)

/-- An array together with an allocation identifier, used to distinguish
"a freshly allocated result array" from "one of the input arrays returned
as-is".  `at::empty_like` / `at::zeros_like` produce a tensor carrying a
fresh identifier; returning an argument keeps its identifier. -/
structure TensorRef where
  id : ℕ
  data : List ℚ
deriving DecidableEq, Repr

/-- `fake_quantize_per_tensor_affine_cuda` in the allocation-tagged model:
the result array `Y` is always the `at::empty_like(self)` allocation,
tagged `freshId`, whether filled by `copy_` (warm-up) or by the kernel. -/
def forwardRef (freshId : ℕ) (self : TensorRef) (scale : ℚ)
    (zero_point quant_min quant_max quant_delay it : ℤ) :
    Except QuantError TensorRef :=
  if quant_min > quant_max then .error .invalidRange
  else if zero_point < 0 then .error .invalidZeroPoint
  else if quant_delay < 0 then .error .invalidDelay
  else if quant_delay ≠ 0 ∧ it < 0 then .error .invalidIter
  else if quant_delay > 0 ∧ it ≤ quant_delay then .ok ⟨freshId, self.data⟩
  else
    let inv_scale := 1 / scale
    .ok ⟨freshId, self.data.map (fakeQuantElem scale zero_point quant_min quant_max inv_scale)⟩

/-- `fake_quantize_per_tensor_affine_backward_cuda` in the allocation-tagged
model: the zero-element shortcut returns the argument `X` itself (keeping
its identifier); every other successful path returns a fresh allocation. -/
def backwardRef (freshId : ℕ) (dY X : TensorRef) (scale : ℚ)
    (zero_point quant_min quant_max quant_delay it : ℤ) :
    Except QuantError TensorRef :=
  if quant_min > quant_max then .error .invalidRange
  else if zero_point < 0 then .error .invalidZeroPoint
  else if quant_delay < 0 then .error .invalidDelay
  else if X.data.length ≤ 0 then .ok X
  else if X.data.length ≠ dY.data.length then .error .shapeMismatch
  else if quant_delay ≠ 0 ∧ it < 0 then .error .invalidIter
  else if quant_delay > 0 ∧ it ≤ quant_delay then .ok ⟨freshId, dY.data⟩
  else
    let inv_scale := 1 / scale
    let mask := X.data.map (maskElem zero_point quant_min quant_max inv_scale)
    .ok ⟨freshId, List.zipWith (· * ·) mask dY.data⟩

end FakeQuant

instance {ε α : Type} [DecidableEq ε] [DecidableEq α] : DecidableEq (Except ε α) := fun a b =>
  match a, b with
  | .ok x, .ok y => decidable_of_iff (x = y) (by simp)
  | .error x, .error y => decidable_of_iff (x = y) (by simp)
  | .ok _, .error _ => .isFalse (by simp)
  | .error _, .ok _ => .isFalse (by simp)

namespace FakeQuant

/-- Rounding half away from zero fixes every integer. -/
theorem roundAway_intCast (n : ℤ) : roundAway (n : ℚ) = n := by
  unfold roundAway
  split_ifs with h
  · rw [Int.floor_int_add]
    norm_num
  · have hrw : ((n : ℚ) - 1/2) = (-(1/2) : ℚ) + n := by ring
    rw [hrw, Int.ceil_add_int]
    norm_num

/-- The forward kernel body, rewritten with the clamp performed on
integers: `y = ((min qmax (max qmin q)) - z) * s` for
`q = round(x * inv + z)`. -/
theorem fakeQuantElem_eq_cast (s : ℚ) (z qmin qmax : ℤ) (inv x : ℚ) :
    fakeQuantElem s z qmin qmax inv x
      = ((min qmax (max qmin (roundAway (x * inv + z))) - z : ℤ) : ℚ) * s := by
  unfold fakeQuantElem
  push_cast
  ring

/-- One application of the forward kernel produces a fixed point of the
kernel (with the same parameters), provided `qmin ≤ qmax`. -/
theorem fakeQuantElem_idem (s : ℚ) (z qmin qmax : ℤ) (hq : qmin ≤ qmax) (x : ℚ) :
    fakeQuantElem s z qmin qmax (1/s) (fakeQuantElem s z qmin qmax (1/s) x)
      = fakeQuantElem s z qmin qmax (1/s) x := by
  rcases eq_or_ne s 0 with hs | hs
  · subst hs
    simp [fakeQuantElem]
  · rw [fakeQuantElem_eq_cast s z qmin qmax (1/s) x]
    set c : ℤ := min qmax (max qmin (roundAway (x * (1/s) + z))) with hc
    have harg : ((c - z : ℤ) : ℚ) * s * (1/s) + (z : ℚ) = ((c : ℤ) : ℚ) := by
      field_simp
    rw [fakeQuantElem_eq_cast, harg, roundAway_intCast]
    have h1 : qmin ≤ c := le_min hq (le_max_left _ _)
    have h2 : c ≤ qmax := min_le_left _ _
    rw [max_eq_right h1, min_eq_right h2]

/-- On valid parameters outside the warm-up window, the forward operator
returns the elementwise kernel applied to the whole input. -/
theorem forward_ok_eq (self : List ℚ) (s : ℚ) (z qmin qmax delay it : ℤ)
    (hq : qmin ≤ qmax) (hz : 0 ≤ z) (hd : 0 ≤ delay)
    (hw : delay = 0 ∨ delay < it) :
    fake_quantize_per_tensor_affine_cuda self s z qmin qmax delay it
      = .ok (self.map (fakeQuantElem s z qmin qmax (1/s))) := by
  have h1 : ¬ qmin > qmax := not_lt.mpr hq
  have h2 : ¬ z < 0 := not_lt.mpr hz
  have h3 : ¬ delay < 0 := not_lt.mpr hd
  have h4 : ¬ (delay ≠ 0 ∧ it < 0) := by
    rintro ⟨hne, hlt⟩
    rcases hw with h | h <;> omega
  have h5 : ¬ (delay > 0 ∧ it ≤ delay) := by
    rintro ⟨hpos, hle⟩
    rcases hw with h | h <;> omega
  simp only [fake_quantize_per_tensor_affine_cuda, if_neg h1, if_neg h2, if_neg h3,
    if_neg h4, if_neg h5]

/-- On valid parameters outside the warm-up window, with conformant
arrays, the backward operator returns `mask * dY`. -/
theorem backward_ok_eq (dY X : List ℚ) (s : ℚ) (z qmin qmax delay it : ℤ)
    (hq : qmin ≤ qmax) (hz : 0 ≤ z) (hd : 0 ≤ delay)
    (hw : delay = 0 ∨ delay < it) (hlen : X.length = dY.length) :
    fake_quantize_per_tensor_affine_backward_cuda dY X s z qmin qmax delay it
      = .ok (List.zipWith (· * ·) (X.map (maskElem z qmin qmax (1/s))) dY) := by
  have h1 : ¬ qmin > qmax := not_lt.mpr hq
  have h2 : ¬ z < 0 := not_lt.mpr hz
  have h3 : ¬ delay < 0 := not_lt.mpr hd
  have h4 : ¬ (delay ≠ 0 ∧ it < 0) := by
    rintro ⟨hne, hlt⟩
    rcases hw with h | h <;> omega
  have h5 : ¬ (delay > 0 ∧ it ≤ delay) := by
    rintro ⟨hpos, hle⟩
    rcases hw with h | h <;> omega
  rcases Nat.eq_zero_or_pos X.length with hx | hx
  · have hX : X = [] := List.length_eq_zero.mp hx
    have hY : dY = [] := List.length_eq_zero.mp (hlen ▸ hx)
    subst hX hY
    simp [fake_quantize_per_tensor_affine_backward_cuda, h1, h2, h3]
  · have h6 : ¬ X.length ≤ 0 := by omega
    simp only [fake_quantize_per_tensor_affine_backward_cuda, if_neg h1, if_neg h2,
      if_neg h3, if_neg h6, if_neg h4, if_neg h5, hlen, if_neg (by simp : ¬ dY.length ≠ dY.length)]
    rw [if_neg (show ¬ dY.length ≤ 0 by omega)]

/-- Exhaustive case analysis of the forward operator's result, following
the source's check order. -/
theorem forward_result_cases (x : List ℚ) (s : ℚ) (z qmin qmax delay it : ℤ) :
    (qmax < qmin
      ∧ fake_quantize_per_tensor_affine_cuda x s z qmin qmax delay it
          = .error .invalidRange)
    ∨ (qmin ≤ qmax ∧ z < 0
      ∧ fake_quantize_per_tensor_affine_cuda x s z qmin qmax delay it
          = .error .invalidZeroPoint)
    ∨ (qmin ≤ qmax ∧ 0 ≤ z ∧ delay < 0
      ∧ fake_quantize_per_tensor_affine_cuda x s z qmin qmax delay it
          = .error .invalidDelay)
    ∨ (qmin ≤ qmax ∧ 0 ≤ z ∧ 0 ≤ delay ∧ delay ≠ 0 ∧ it < 0
      ∧ fake_quantize_per_tensor_affine_cuda x s z qmin qmax delay it
          = .error .invalidIter)
    ∨ (qmin ≤ qmax ∧ 0 ≤ z ∧ 0 ≤ delay ∧ (delay = 0 ∨ 0 ≤ it)
      ∧ ∃ y, fake_quantize_per_tensor_affine_cuda x s z qmin qmax delay it = .ok y) := by
  by_cases h1 : qmin > qmax
  · refine Or.inl ⟨h1, ?_⟩
    unfold fake_quantize_per_tensor_affine_cuda
    rw [if_pos h1]
  by_cases h2 : z < 0
  · refine Or.inr (Or.inl ⟨not_lt.mp h1, h2, ?_⟩)
    unfold fake_quantize_per_tensor_affine_cuda
    rw [if_neg h1, if_pos h2]
  by_cases h3 : delay < 0
  · refine Or.inr (Or.inr (Or.inl ⟨not_lt.mp h1, not_lt.mp h2, h3, ?_⟩))
    unfold fake_quantize_per_tensor_affine_cuda
    rw [if_neg h1, if_neg h2, if_pos h3]
  by_cases h4 : delay ≠ 0 ∧ it < 0
  · refine Or.inr (Or.inr (Or.inr (Or.inl ⟨not_lt.mp h1, not_lt.mp h2, not_lt.mp h3,
      h4.1, h4.2, ?_⟩)))
    unfold fake_quantize_per_tensor_affine_cuda
    rw [if_neg h1, if_neg h2, if_neg h3, if_pos h4]
  by_cases h5 : delay > 0 ∧ it ≤ delay
  · refine Or.inr (Or.inr (Or.inr (Or.inr ⟨not_lt.mp h1, not_lt.mp h2, not_lt.mp h3,
      by omega, x, ?_⟩)))
    unfold fake_quantize_per_tensor_affine_cuda
    rw [if_neg h1, if_neg h2, if_neg h3, if_neg h4, if_pos h5]
  · refine Or.inr (Or.inr (Or.inr (Or.inr ⟨not_lt.mp h1, not_lt.mp h2, not_lt.mp h3,
      by omega, x.map (fakeQuantElem s z qmin qmax (1/s)), ?_⟩)))
    unfold fake_quantize_per_tensor_affine_cuda
    rw [if_neg h1, if_neg h2, if_neg h3, if_neg h4, if_neg h5]

/-- Exhaustive case analysis of the backward operator's result, following
the source's check order (zero-element shortcut before the size and
`iter` checks). -/
theorem backward_result_cases (dY X : List ℚ) (s : ℚ) (z qmin qmax delay it : ℤ) :
    (qmax < qmin
      ∧ fake_quantize_per_tensor_affine_backward_cuda dY X s z qmin qmax delay it
          = .error .invalidRange)
    ∨ (qmin ≤ qmax ∧ z < 0
      ∧ fake_quantize_per_tensor_affine_backward_cuda dY X s z qmin qmax delay it
          = .error .invalidZeroPoint)
    ∨ (qmin ≤ qmax ∧ 0 ≤ z ∧ delay < 0
      ∧ fake_quantize_per_tensor_affine_backward_cuda dY X s z qmin qmax delay it
          = .error .invalidDelay)
    ∨ (qmin ≤ qmax ∧ 0 ≤ z ∧ 0 ≤ delay ∧ X = []
      ∧ fake_quantize_per_tensor_affine_backward_cuda dY X s z qmin qmax delay it = .ok X)
    ∨ (qmin ≤ qmax ∧ 0 ≤ z ∧ 0 ≤ delay ∧ X ≠ [] ∧ X.length ≠ dY.length
      ∧ fake_quantize_per_tensor_affine_backward_cuda dY X s z qmin qmax delay it
          = .error .shapeMismatch)
    ∨ (qmin ≤ qmax ∧ 0 ≤ z ∧ 0 ≤ delay ∧ X ≠ [] ∧ X.length = dY.length
      ∧ delay ≠ 0 ∧ it < 0
      ∧ fake_quantize_per_tensor_affine_backward_cuda dY X s z qmin qmax delay it
          = .error .invalidIter)
    ∨ (qmin ≤ qmax ∧ 0 ≤ z ∧ 0 ≤ delay ∧ X ≠ [] ∧ X.length = dY.length
      ∧ (delay = 0 ∨ 0 ≤ it)
      ∧ ∃ gy, fake_quantize_per_tensor_affine_backward_cuda dY X s z qmin qmax delay it
          = .ok gy) := by
  by_cases h1 : qmin > qmax
  · refine Or.inl ⟨h1, ?_⟩
    unfold fake_quantize_per_tensor_affine_backward_cuda
    rw [if_pos h1]
  by_cases h2 : z < 0
  · refine Or.inr (Or.inl ⟨not_lt.mp h1, h2, ?_⟩)
    unfold fake_quantize_per_tensor_affine_backward_cuda
    rw [if_neg h1, if_pos h2]
  by_cases h3 : delay < 0
  · refine Or.inr (Or.inr (Or.inl ⟨not_lt.mp h1, not_lt.mp h2, h3, ?_⟩))
    unfold fake_quantize_per_tensor_affine_backward_cuda
    rw [if_neg h1, if_neg h2, if_pos h3]
  by_cases h4 : X.length ≤ 0
  · refine Or.inr (Or.inr (Or.inr (Or.inl ⟨not_lt.mp h1, not_lt.mp h2, not_lt.mp h3,
      List.length_eq_zero.mp (Nat.le_zero.mp h4), ?_⟩)))
    unfold fake_quantize_per_tensor_affine_backward_cuda
    rw [if_neg h1, if_neg h2, if_neg h3, if_pos h4]
  have hne : X ≠ [] := fun h => h4 (by simp [h])
  by_cases h5 : X.length ≠ dY.length
  · refine Or.inr (Or.inr (Or.inr (Or.inr (Or.inl ⟨not_lt.mp h1, not_lt.mp h2,
      not_lt.mp h3, hne, h5, ?_⟩))))
    unfold fake_quantize_per_tensor_affine_backward_cuda
    rw [if_neg h1, if_neg h2, if_neg h3, if_neg h4, if_pos h5]
  by_cases h6 : delay ≠ 0 ∧ it < 0
  · refine Or.inr (Or.inr (Or.inr (Or.inr (Or.inr (Or.inl ⟨not_lt.mp h1, not_lt.mp h2,
      not_lt.mp h3, hne, not_ne_iff.mp h5, h6.1, h6.2, ?_⟩)))))
    unfold fake_quantize_per_tensor_affine_backward_cuda
    rw [if_neg h1, if_neg h2, if_neg h3, if_neg h4, if_neg h5, if_pos h6]
  by_cases h7 : delay > 0 ∧ it ≤ delay
  · refine Or.inr (Or.inr (Or.inr (Or.inr (Or.inr (Or.inr ⟨not_lt.mp h1, not_lt.mp h2,
      not_lt.mp h3, hne, not_ne_iff.mp h5, by omega, dY, ?_⟩)))))
    unfold fake_quantize_per_tensor_affine_backward_cuda
    rw [if_neg h1, if_neg h2, if_neg h3, if_neg h4, if_neg h5, if_neg h6, if_pos h7]
  · refine Or.inr (Or.inr (Or.inr (Or.inr (Or.inr (Or.inr ⟨not_lt.mp h1, not_lt.mp h2,
      not_lt.mp h3, hne, not_ne_iff.mp h5, by omega,
      List.zipWith (· * ·) (X.map (maskElem z qmin qmax (1/s))) dY, ?_⟩)))))
    unfold fake_quantize_per_tensor_affine_backward_cuda
    rw [if_neg h1, if_neg h2, if_neg h3, if_neg h4, if_neg h5, if_neg h6, if_neg h7]

/-- Claim C1: for every input array element `x`, when validation passes and
the warm-up passthrough does not apply (`quant_delay = 0` or
`iter > quant_delay`), the forward operator writes to the corresponding
output position `y = (clamp(round(x * (1/scale) + zero_point), quant_min,
quant_max) - zero_point) * scale`, with `1/scale` computed once per call. -/
theorem C1_forward_formula (self : List ℚ) (s : ℚ) (z qmin qmax delay it : ℤ)
    (hq : qmin ≤ qmax) (hz : 0 ≤ z) (hd : 0 ≤ delay)
    (hw : delay = 0 ∨ delay < it) :
    fake_quantize_per_tensor_affine_cuda self s z qmin qmax delay it
      = .ok (self.map fun x =>
          ((min qmax (max qmin (roundAway (x * (1/s) + z))) - z : ℤ) : ℚ) * s) := by
  rw [forward_ok_eq self s z qmin qmax delay it hq hz hd hw]
  exact congrArg Except.ok
    (List.map_congr_left fun x _ => fakeQuantElem_eq_cast s z qmin qmax (1/s) x)

/-- Claim C1, witness at `x = 3.3`, `scale = 1/2`, `zero_point = 10`,
`quant_min = 0`, `quant_max = 255`, `quant_delay = 0`, `iter = 0`. -/
theorem C1_forward_formula_witness :
    fake_quantize_per_tensor_affine_cuda [33/10] (1/2) 10 0 255 0 0
      = .ok (([33/10] : List ℚ).map fun x =>
          ((min 255 (max 0 (roundAway (x * (1/(1/2)) + 10))) - 10 : ℤ) : ℚ) * (1/2)) :=
  C1_forward_formula [33/10] (1/2) 10 0 255 0 0 (by norm_num) (by norm_num)
    (by norm_num) (Or.inl rfl)

/-- Claim C3: for every `quant_delay > 0` and `0 ≤ iter ≤ quant_delay`
with otherwise valid parameters and conformant arrays, `forward(x)` is an
element-for-element copy of `x` and `backward(g, x)` an element-for-element
copy of `g`. -/
theorem C3_warmup_passthrough (x g xin : List ℚ) (s : ℚ) (z qmin qmax delay it : ℤ)
    (hq : qmin ≤ qmax) (hz : 0 ≤ z) (hdp : 0 < delay) (h0 : 0 ≤ it) (h1 : it ≤ delay)
    (hlen : xin.length = g.length) :
    fake_quantize_per_tensor_affine_cuda x s z qmin qmax delay it = .ok x
    ∧ fake_quantize_per_tensor_affine_backward_cuda g xin s z qmin qmax delay it = .ok g := by
  have hn1 : ¬ qmin > qmax := not_lt.mpr hq
  have hn2 : ¬ z < 0 := not_lt.mpr hz
  have hn3 : ¬ delay < 0 := by omega
  have hn4 : ¬ (delay ≠ 0 ∧ it < 0) := by omega
  constructor
  · simp only [fake_quantize_per_tensor_affine_cuda, if_neg hn1, if_neg hn2, if_neg hn3,
      if_neg hn4, if_pos (show delay > 0 ∧ it ≤ delay from And.intro hdp h1)]
  · rcases Nat.eq_zero_or_pos xin.length with hx | hx
    · have hX : xin = [] := List.length_eq_zero.mp hx
      have hG : g = [] := List.length_eq_zero.mp (by omega)
      subst hX hG
      simp only [fake_quantize_per_tensor_affine_backward_cuda, if_neg hn1, if_neg hn2,
        if_neg hn3, List.length_nil, if_pos (Nat.le_refl 0)]
    · simp only [fake_quantize_per_tensor_affine_backward_cuda, if_neg hn1, if_neg hn2,
        if_neg hn3, if_neg (show ¬ xin.length ≤ 0 by omega),
        if_neg (show ¬ xin.length ≠ g.length by omega), if_neg hn4, if_pos (show delay > 0 ∧ it ≤ delay from And.intro hdp h1)]

/-- Claim C3, witness with `quant_delay = 3`, `iter = 2`. -/
theorem C3_warmup_passthrough_witness :
    fake_quantize_per_tensor_affine_cuda [1] 1 0 0 255 3 2 = .ok [1]
    ∧ fake_quantize_per_tensor_affine_backward_cuda [2] [3] 1 0 0 255 3 2 = .ok [2] :=
  C3_warmup_passthrough [1] [2] [3] 1 0 0 255 3 2 (by norm_num) (by norm_num)
    (by norm_num) (by norm_num) (by norm_num) rfl

/-- Claim C6: with valid parameters and `quant_delay = 0`, the forward
operator is idempotent: a successful result is itself mapped to itself. -/
theorem C6_forward_idempotent (x : List ℚ) (s : ℚ) (z qmin qmax it : ℤ)
    (hq : qmin ≤ qmax) (hz : 0 ≤ z) :
    ∀ y, fake_quantize_per_tensor_affine_cuda x s z qmin qmax 0 it = .ok y →
      fake_quantize_per_tensor_affine_cuda y s z qmin qmax 0 it = .ok y := by
  intro y hy
  rw [forward_ok_eq x s z qmin qmax 0 it hq hz le_rfl (Or.inl rfl)] at hy
  injection hy with h
  subst h
  rw [forward_ok_eq _ s z qmin qmax 0 it hq hz le_rfl (Or.inl rfl)]
  refine congrArg Except.ok ?_
  rw [List.map_map]
  refine List.map_congr_left fun a _ => ?_
  simp only [Function.comp_apply]
  exact fakeQuantElem_idem s z qmin qmax hq a

/-- Claim C6, witness: `forward([3.3]) = [3.5]` and `forward([3.5]) = [3.5]`. -/
theorem C6_forward_idempotent_witness :
    fake_quantize_per_tensor_affine_cuda [7/2] (1/2) 10 0 255 0 0 = .ok [7/2] :=
  C6_forward_idempotent [33/10] (1/2) 10 0 255 0 (by norm_num) (by norm_num) [7/2]
    (by norm_num [fake_quantize_per_tensor_affine_cuda, fakeQuantElem, roundAway])

/-- Claim C7: outside warm-up, with valid parameters, every output value
of the forward operator is `(q - zero_point) * scale` for some integer
`q ∈ [quant_min, quant_max]`. -/
theorem C7_output_in_grid (x : List ℚ) (s : ℚ) (z qmin qmax delay it : ℤ)
    (hq : qmin ≤ qmax) (hz : 0 ≤ z) (hd : 0 ≤ delay) (hw : delay = 0 ∨ delay < it) :
    ∀ y, fake_quantize_per_tensor_affine_cuda x s z qmin qmax delay it = .ok y →
      ∀ v ∈ y, ∃ q : ℤ, qmin ≤ q ∧ q ≤ qmax ∧ v = ((q : ℚ) - z) * s := by
  intro y hy v hv
  rw [forward_ok_eq x s z qmin qmax delay it hq hz hd hw] at hy
  injection hy with h
  subst h
  rcases List.mem_map.mp hv with ⟨a, _, rfl⟩
  refine ⟨min qmax (max qmin (roundAway (a * (1/s) + z))),
    le_min hq (le_max_left _ _), min_le_left _ _, ?_⟩
  rw [fakeQuantElem_eq_cast]
  push_cast
  ring

/-- Claim C7, witness: the output value `3.5` is `(17 - 10) * (1/2)` with
`17 ∈ [0, 255]`. -/
theorem C7_output_in_grid_witness :
    ∃ q : ℤ, (0:ℤ) ≤ q ∧ q ≤ 255 ∧ (7/2 : ℚ) = ((q : ℚ) - 10) * (1/2) :=
  C7_output_in_grid [33/10] (1/2) 10 0 255 0 0 (by norm_num) (by norm_num)
    (by norm_num) (Or.inl rfl) [7/2]
    (by norm_num [fake_quantize_per_tensor_affine_cuda, fakeQuantElem, roundAway])
    (7/2) (by simp)

/-- Claim C9: with `scale = 1/2`, `zero_point = 10`, `quant_min = 0`,
`quant_max = 255`, `quant_delay = 0`: input `3.3` rounds to `q = 17` and
maps to `3.5`; input `200` rounds to `q = 410`, is clamped to `255`, and
maps to `122.5`; and the backward mask at the position holding `200` is `0`. -/
theorem C9_concrete_scenario :
    roundAway (33/10 * (1/((1:ℚ)/2)) + 10) = 17
    ∧ roundAway (200 * (1/((1:ℚ)/2)) + 10) = 410
    ∧ fake_quantize_per_tensor_affine_cuda [33/10, 200] (1/2) 10 0 255 0 0
        = .ok [7/2, 245/2]
    ∧ maskElem 10 0 255 (1/(1/2)) 200 = 0
    ∧ fake_quantize_per_tensor_affine_backward_cuda [1, 1] [33/10, 200] (1/2) 10 0 255 0 0
        = .ok [1, 0] := by
  refine ⟨?_, ?_, ?_, ?_, ?_⟩ <;>
    norm_num [fake_quantize_per_tensor_affine_cuda,
      fake_quantize_per_tensor_affine_backward_cuda, fakeQuantElem, maskElem, roundAway]

/-- Claim C10: a zero-element input array makes the backward operator
return that very input array, before the size-mismatch and `iter` checks,
so neither a nonconformant `gradOutput` nor `quant_delay ≠ 0 ∧ iter < 0`
raises an error. -/
theorem C10_empty_input_shortcut (fid : ℕ) (dY X : TensorRef) (s : ℚ)
    (z qmin qmax delay it : ℤ)
    (hq : qmin ≤ qmax) (hz : 0 ≤ z) (hd : 0 ≤ delay) (hX : X.data = []) :
    backwardRef fid dY X s z qmin qmax delay it = .ok X := by
  simp only [backwardRef, if_neg (not_lt.mpr hq), if_neg (not_lt.mpr hz),
    if_neg (not_lt.mpr hd), hX, List.length_nil, if_pos (Nat.le_refl 0)]

/-- Claim C10, witness: empty input, nonconformant gradient of one
element, `quant_delay = 3`, `iter = -1`; the call still succeeds and
returns the input array (identifier `0`) itself. -/
theorem C10_empty_input_shortcut_witness :
    backwardRef 7 ⟨1, [1]⟩ ⟨0, []⟩ 1 0 0 255 3 (-1) = .ok ⟨0, []⟩ :=
  C10_empty_input_shortcut 7 ⟨1, [1]⟩ ⟨0, []⟩ 1 0 0 255 3 (-1)
    (by norm_num) (by norm_num) (by norm_num) rfl

/-- Claim C2: outside warm-up, with valid parameters and conformant
arrays, the backward operator returns at each position `m * gradOutput[i]`
with `m = 1` when `quant_min ≤ round(input[i] * (1/scale) + zero_point) ≤
quant_max` and `m = 0` otherwise; where `gradOutput[i] ≠ 0`, position `i`
of the result is zero iff the rounded value falls outside the range. -/
theorem C2_backward_mask_formula (dY X : List ℚ) (s : ℚ) (z qmin qmax delay it : ℤ)
    (hq : qmin ≤ qmax) (hz : 0 ≤ z) (hd : 0 ≤ delay)
    (hw : delay = 0 ∨ delay < it) (hlen : X.length = dY.length) :
    ∃ dX : List ℚ,
      fake_quantize_per_tensor_affine_backward_cuda dY X s z qmin qmax delay it = .ok dX
      ∧ dX = List.zipWith (fun xv gv =>
          (if qmin ≤ roundAway (xv * (1/s) + z) ∧ roundAway (xv * (1/s) + z) ≤ qmax
            then (1:ℚ) else 0) * gv) X dY
      ∧ ∀ (i : ℕ) (xv gv : ℚ), X[i]? = some xv → dY[i]? = some gv → gv ≠ 0 →
          (dX[i]? = some 0 ↔
            ¬ (qmin ≤ roundAway (xv * (1/s) + z) ∧ roundAway (xv * (1/s) + z) ≤ qmax)) := by
  have hzip : List.zipWith (· * ·) (X.map (maskElem z qmin qmax (1/s))) dY
      = List.zipWith (fun xv gv =>
          (if qmin ≤ roundAway (xv * (1/s) + z) ∧ roundAway (xv * (1/s) + z) ≤ qmax
            then (1:ℚ) else 0) * gv) X dY := by
    rw [List.zipWith_map_left]
    simp only [maskElem]
  refine ⟨_, (backward_ok_eq dY X s z qmin qmax delay it hq hz hd hw hlen).trans
    (congrArg Except.ok hzip), rfl, ?_⟩
  intro i xv gv hx hg hgv
  have hval : (List.zipWith (fun xv gv =>
      (if qmin ≤ roundAway (xv * (1/s) + z) ∧ roundAway (xv * (1/s) + z) ≤ qmax
        then (1:ℚ) else 0) * gv) X dY)[i]?
      = some ((if qmin ≤ roundAway (xv * (1/s) + z) ∧ roundAway (xv * (1/s) + z) ≤ qmax
        then (1:ℚ) else 0) * gv) := by
    simp [List.getElem?_zipWith', hx, hg]
  rw [hval, Option.some_inj]
  by_cases hcond : qmin ≤ roundAway (xv * (1/s) + z) ∧ roundAway (xv * (1/s) + z) ≤ qmax
  · rw [if_pos hcond, one_mul]
    exact iff_of_false hgv (not_not_intro hcond)
  · rw [if_neg hcond, zero_mul]
    exact iff_of_true rfl hcond

/-- Claim C2, witness at the concrete scenario of the spec. -/
theorem C2_backward_mask_formula_witness :
    ∃ dX : List ℚ,
      fake_quantize_per_tensor_affine_backward_cuda [1, 1] [33/10, 200] (1/2) 10 0 255 0 0
        = .ok dX
      ∧ dX = List.zipWith (fun xv gv =>
          (if (0:ℤ) ≤ roundAway (xv * (1/(1/2)) + ((10:ℤ):ℚ)) ∧
              roundAway (xv * (1/(1/2)) + ((10:ℤ):ℚ)) ≤ 255
            then (1:ℚ) else 0) * gv) [33/10, 200] [1, 1]
      ∧ ∀ (i : ℕ) (xv gv : ℚ), ([33/10, 200] : List ℚ)[i]? = some xv →
          ([1, 1] : List ℚ)[i]? = some gv → gv ≠ 0 →
          (dX[i]? = some 0 ↔
            ¬ ((0:ℤ) ≤ roundAway (xv * (1/(1/2)) + ((10:ℤ):ℚ)) ∧
              roundAway (xv * (1/(1/2)) + ((10:ℤ):ℚ)) ≤ 255)) :=
  C2_backward_mask_formula [1, 1] [33/10, 200] (1/2) 10 0 255 0 0 (by norm_num)
    (by norm_num) (by norm_num) (Or.inl rfl) rfl

/-- Claim C4, counterexample: with `quant_min = 0 ≤ quant_max = 255`,
`zero_point = 0`, `quant_delay = 3 ≠ 0` and `iter = -1 < 0`, the claim
demands that the backward operator fail with InvalidIter; on a
zero-element input it instead returns normally. -/
theorem C4_counterexample :
    fake_quantize_per_tensor_affine_backward_cuda [1] [] 1 0 0 255 3 (-1) = .ok []
    ∧ fake_quantize_per_tensor_affine_backward_cuda [1] [] 1 0 0 255 3 (-1)
        ≠ .error .invalidIter := by
  have h : fake_quantize_per_tensor_affine_backward_cuda [1] [] 1 0 0 255 3 (-1) = .ok [] := by
    norm_num [fake_quantize_per_tensor_affine_backward_cuda]
  exact ⟨h, by rw [h]; simp⟩

/-- Claim C4, amended: the four validation errors are raised exactly under
the stated chained conditions for the forward operator; the backward
operator raises the first three identically, but raises InvalidIter only
when additionally the input is nonempty and conformant with the gradient,
because the zero-element shortcut and the size check precede the `iter`
check.  When no condition holds the forward operator returns normally. -/
theorem C4_validator_amended (x dY X : List ℚ) (s : ℚ) (z qmin qmax delay it : ℤ) :
    (fake_quantize_per_tensor_affine_cuda x s z qmin qmax delay it
        = .error .invalidRange ↔ qmax < qmin)
    ∧ (fake_quantize_per_tensor_affine_cuda x s z qmin qmax delay it
        = .error .invalidZeroPoint ↔ qmin ≤ qmax ∧ z < 0)
    ∧ (fake_quantize_per_tensor_affine_cuda x s z qmin qmax delay it
        = .error .invalidDelay ↔ qmin ≤ qmax ∧ 0 ≤ z ∧ delay < 0)
    ∧ (fake_quantize_per_tensor_affine_cuda x s z qmin qmax delay it
        = .error .invalidIter ↔ qmin ≤ qmax ∧ 0 ≤ z ∧ 0 ≤ delay ∧ delay ≠ 0 ∧ it < 0)
    ∧ (qmin ≤ qmax → 0 ≤ z → 0 ≤ delay → (delay = 0 ∨ 0 ≤ it) →
        ∃ y, fake_quantize_per_tensor_affine_cuda x s z qmin qmax delay it = .ok y)
    ∧ (fake_quantize_per_tensor_affine_backward_cuda dY X s z qmin qmax delay it
        = .error .invalidRange ↔ qmax < qmin)
    ∧ (fake_quantize_per_tensor_affine_backward_cuda dY X s z qmin qmax delay it
        = .error .invalidZeroPoint ↔ qmin ≤ qmax ∧ z < 0)
    ∧ (fake_quantize_per_tensor_affine_backward_cuda dY X s z qmin qmax delay it
        = .error .invalidDelay ↔ qmin ≤ qmax ∧ 0 ≤ z ∧ delay < 0)
    ∧ (fake_quantize_per_tensor_affine_backward_cuda dY X s z qmin qmax delay it
        = .error .invalidIter ↔ qmin ≤ qmax ∧ 0 ≤ z ∧ 0 ≤ delay ∧ X ≠ []
          ∧ X.length = dY.length ∧ delay ≠ 0 ∧ it < 0) := by
  have hf := forward_result_cases x s z qmin qmax delay it
  have hb := backward_result_cases dY X s z qmin qmax delay it
  refine ⟨?_, ?_, ?_, ?_, ?_, ?_, ?_, ?_, ?_⟩
  · rcases hf with ⟨h1, hres⟩ | ⟨h1, h2, hres⟩ | ⟨h1, h2, h3, hres⟩ |
      ⟨h1, h2, h3, h4, h5, hres⟩ | ⟨h1, h2, h3, h4, y, hres⟩ <;>
      rw [hres] <;> simp <;> omega
  · rcases hf with ⟨h1, hres⟩ | ⟨h1, h2, hres⟩ | ⟨h1, h2, h3, hres⟩ |
      ⟨h1, h2, h3, h4, h5, hres⟩ | ⟨h1, h2, h3, h4, y, hres⟩ <;>
      rw [hres] <;> simp <;> omega
  · rcases hf with ⟨h1, hres⟩ | ⟨h1, h2, hres⟩ | ⟨h1, h2, h3, hres⟩ |
      ⟨h1, h2, h3, h4, h5, hres⟩ | ⟨h1, h2, h3, h4, y, hres⟩ <;>
      rw [hres] <;> simp <;> omega
  · rcases hf with ⟨h1, hres⟩ | ⟨h1, h2, hres⟩ | ⟨h1, h2, h3, hres⟩ |
      ⟨h1, h2, h3, h4, h5, hres⟩ | ⟨h1, h2, h3, h4, y, hres⟩ <;>
      rw [hres] <;> simp <;> omega
  · intro hq hz hd hi
    rcases hf with ⟨h1, hres⟩ | ⟨h1, h2, hres⟩ | ⟨h1, h2, h3, hres⟩ |
      ⟨h1, h2, h3, h4, h5, hres⟩ | ⟨h1, h2, h3, h4, y, hres⟩
    · omega
    · omega
    · omega
    · omega
    · exact ⟨y, hres⟩
  · rcases hb with ⟨h1, hres⟩ | ⟨h1, h2, hres⟩ | ⟨h1, h2, h3, hres⟩ |
      ⟨h1, h2, h3, h4, hres⟩ | ⟨h1, h2, h3, h4, h5, hres⟩ |
      ⟨h1, h2, h3, h4, h5, h6, h7, hres⟩ | ⟨h1, h2, h3, h4, h5, h6, gy, hres⟩ <;>
      rw [hres] <;> simp_all
  · rcases hb with ⟨h1, hres⟩ | ⟨h1, h2, hres⟩ | ⟨h1, h2, h3, hres⟩ |
      ⟨h1, h2, h3, h4, hres⟩ | ⟨h1, h2, h3, h4, h5, hres⟩ |
      ⟨h1, h2, h3, h4, h5, h6, h7, hres⟩ | ⟨h1, h2, h3, h4, h5, h6, gy, hres⟩ <;>
      rw [hres] <;> simp_all
  · rcases hb with ⟨h1, hres⟩ | ⟨h1, h2, hres⟩ | ⟨h1, h2, h3, hres⟩ |
      ⟨h1, h2, h3, h4, hres⟩ | ⟨h1, h2, h3, h4, h5, hres⟩ |
      ⟨h1, h2, h3, h4, h5, h6, h7, hres⟩ | ⟨h1, h2, h3, h4, h5, h6, gy, hres⟩ <;>
      rw [hres] <;> simp_all
  · rcases hb with ⟨h1, hres⟩ | ⟨h1, h2, hres⟩ | ⟨h1, h2, h3, hres⟩ |
      ⟨h1, h2, h3, h4, hres⟩ | ⟨h1, h2, h3, h4, h5, hres⟩ |
      ⟨h1, h2, h3, h4, h5, h6, h7, hres⟩ | ⟨h1, h2, h3, h4, h5, h6, gy, hres⟩ <;>
      rw [hres] <;> simp_all <;> omega

/-- Claim C5, counterexample: a zero-element input with a one-element
gradient and passing validator returns normally instead of failing with
ShapeMismatch. -/
theorem C5_counterexample :
    fake_quantize_per_tensor_affine_backward_cuda [1] [] 1 0 0 255 0 0 = .ok [] := by
  norm_num [fake_quantize_per_tensor_affine_backward_cuda]

/-- Claim C5, amended: when the input of the backward operator is
nonempty, the validator passes and the element counts differ, the call
fails with ShapeMismatch. -/
theorem C5_shape_mismatch (dY X : List ℚ) (s : ℚ) (z qmin qmax delay it : ℤ)
    (hq : qmin ≤ qmax) (hz : 0 ≤ z) (hd : 0 ≤ delay)
    (hX : X ≠ []) (hlen : X.length ≠ dY.length) :
    fake_quantize_per_tensor_affine_backward_cuda dY X s z qmin qmax delay it
      = .error .shapeMismatch := by
  have hpos : 0 < X.length := List.length_pos.mpr hX
  simp only [fake_quantize_per_tensor_affine_backward_cuda, if_neg (not_lt.mpr hq),
    if_neg (not_lt.mpr hz), if_neg (not_lt.mpr hd),
    if_neg (show ¬ X.length ≤ 0 by omega), if_pos hlen]

/-- Claim C5, witness: two-element input, one-element gradient. -/
theorem C5_shape_mismatch_witness :
    fake_quantize_per_tensor_affine_backward_cuda [1] [1, 2] 1 0 0 255 0 0
      = .error .shapeMismatch :=
  C5_shape_mismatch [1] [1, 2] 1 0 0 255 0 0 (by norm_num) (by norm_num) (by norm_num)
    (by simp) (by simp)

/-- Claim C8, counterexample: on a zero-element input the backward
operator returns the input array `X` itself (allocation identifier `0`),
not a newly allocated array (the fresh identifier `5` is unused). -/
theorem C8_counterexample :
    backwardRef 5 ⟨1, [1]⟩ ⟨0, []⟩ 1 0 0 255 0 0 = .ok ⟨0, []⟩ := by
  norm_num [backwardRef]

/-- Claim C8, amended: the forward operator always returns a freshly
allocated array of the input's element count; the backward operator does
so except in the zero-element degenerate case, where it returns the input
array `X` itself. -/
theorem C8_fresh_output (fid : ℕ) (self dY X : TensorRef) (s : ℚ)
    (z qmin qmax delay it : ℤ)
    (hself : fid ≠ self.id) (hdY : fid ≠ dY.id) (hX : fid ≠ X.id) :
    (∀ Y, forwardRef fid self s z qmin qmax delay it = .ok Y →
        Y.id ≠ self.id ∧ Y.data.length = self.data.length)
    ∧ ∀ dX, backwardRef fid dY X s z qmin qmax delay it = .ok dX →
        (X.data = [] → dX = X)
        ∧ (X.data ≠ [] → dX.id ≠ dY.id ∧ dX.id ≠ X.id
            ∧ dX.data.length = dY.data.length) := by
  constructor
  · intro Y hY
    unfold forwardRef at hY
    by_cases h1 : qmin > qmax
    · rw [if_pos h1] at hY; exact absurd hY (by simp)
    rw [if_neg h1] at hY
    by_cases h2 : z < 0
    · rw [if_pos h2] at hY; exact absurd hY (by simp)
    rw [if_neg h2] at hY
    by_cases h3 : delay < 0
    · rw [if_pos h3] at hY; exact absurd hY (by simp)
    rw [if_neg h3] at hY
    by_cases h4 : delay ≠ 0 ∧ it < 0
    · rw [if_pos h4] at hY; exact absurd hY (by simp)
    rw [if_neg h4] at hY
    by_cases h5 : delay > 0 ∧ it ≤ delay
    · rw [if_pos h5] at hY
      obtain rfl := Except.ok.inj hY
      exact ⟨hself, rfl⟩
    · rw [if_neg h5] at hY
      obtain rfl := Except.ok.inj hY
      exact ⟨hself, by simp⟩
  · intro dX hdX
    unfold backwardRef at hdX
    by_cases h1 : qmin > qmax
    · rw [if_pos h1] at hdX; exact absurd hdX (by simp)
    rw [if_neg h1] at hdX
    by_cases h2 : z < 0
    · rw [if_pos h2] at hdX; exact absurd hdX (by simp)
    rw [if_neg h2] at hdX
    by_cases h3 : delay < 0
    · rw [if_pos h3] at hdX; exact absurd hdX (by simp)
    rw [if_neg h3] at hdX
    by_cases h4 : X.data.length ≤ 0
    · rw [if_pos h4] at hdX
      obtain rfl := Except.ok.inj hdX
      exact ⟨fun _ => rfl,
        fun hne => absurd (List.length_eq_zero.mp (Nat.le_zero.mp h4)) hne⟩
    rw [if_neg h4] at hdX
    have hne : X.data ≠ [] := fun h => h4 (by simp [h])
    by_cases h5 : X.data.length ≠ dY.data.length
    · rw [if_pos h5] at hdX; exact absurd hdX (by simp)
    rw [if_neg h5] at hdX
    by_cases h6 : delay ≠ 0 ∧ it < 0
    · rw [if_pos h6] at hdX; exact absurd hdX (by simp)
    rw [if_neg h6] at hdX
    by_cases h7 : delay > 0 ∧ it ≤ delay
    · rw [if_pos h7] at hdX
      obtain rfl := Except.ok.inj hdX
      exact ⟨fun h => absurd h hne, fun _ => ⟨hdY, hX, rfl⟩⟩
    · rw [if_neg h7] at hdX
      obtain rfl := Except.ok.inj hdX
      have hlen : X.data.length = dY.data.length := not_ne_iff.mp h5
      refine ⟨fun h => absurd h hne, fun _ => ⟨hdY, hX, ?_⟩⟩
      simp [List.length_zipWith, hlen]

/-- Claim C8, witness at concrete tensors with distinct identifiers. -/
theorem C8_fresh_output_witness :
    (∀ Y, forwardRef 5 ⟨0, [1]⟩ 1 0 0 255 0 0 = .ok Y →
        Y.id ≠ (⟨0, [1]⟩ : TensorRef).id
        ∧ Y.data.length = (⟨0, [1]⟩ : TensorRef).data.length)
    ∧ ∀ dX, backwardRef 5 ⟨1, [1]⟩ ⟨2, [2]⟩ 1 0 0 255 0 0 = .ok dX →
        ((⟨2, [2]⟩ : TensorRef).data = [] → dX = ⟨2, [2]⟩)
        ∧ ((⟨2, [2]⟩ : TensorRef).data ≠ [] → dX.id ≠ (⟨1, [1]⟩ : TensorRef).id
            ∧ dX.id ≠ (⟨2, [2]⟩ : TensorRef).id
            ∧ dX.data.length = (⟨1, [1]⟩ : TensorRef).data.length) :=
  C8_fresh_output 5 ⟨0, [1]⟩ ⟨1, [1]⟩ ⟨2, [2]⟩ 1 0 0 255 0 0
    (by decide) (by decide) (by decide)

end FakeQuant
